import Mathlib

/-!
Verification of the Quotation Agent orchestrator and web front-end.

The repository ships the web UI sources (the Pinia chat store, the axios
API client with its `ChatResponse` wire type, and the chat/trace panels)
together with the design documentation of the backend orchestrator
(intent routing, the structured-query attempt loop, the iterative
retrieval loop, the single bounded cross-engine fallback, and the trace
model).  The backend orchestrator itself (`agent.py`) is not part of the
supplied sources, so its components are modelled here from the spec, as
marked on each definition; the front-end definitions are translated
directly from the TypeScript sources.
-/

namespace QuotationAgent

/-- Role of a conversation turn / chat message. -/
inductive Role where
  | user
  | assistant
deriving DecidableEq, Repr

/-- Modelled from the spec: a `RetrievedDoc` as returned by the
DocumentIndex — chunk identifier, content text, relevance score
(opaque ordering key, modelled as `Int`). -/
structure RetrievedDoc where
  chunkId : String
  content : String
  score : Int
deriving DecidableEq, Repr

/-- Modelled from the spec: judgment status returned by the language
model in the retrieval loop. -/
inductive JudgStatus where
  | SOLVED
  | CONTINUE
deriving DecidableEq, Repr

/-- Modelled from the spec: the validated judgment variant with required
status and optional clues / suggested next query. -/
structure Judgment where
  status : JudgStatus
  clues : Option String
  nextQuery : Option String
deriving DecidableEq, Repr

/-- Modelled from the spec: one round of the iterative retrieval loop
(1-based index, query used, docs retrieved this round, judgment). -/
structure RetrievalRound where
  index : Nat
  query : String
  docs : List RetrievedDoc
  judgment : Judgment
deriving DecidableEq, Repr

/-- Modelled from the spec: why the retrieval loop stopped.  `solved`
is the Solved state; `roundLimit` and `noNewDocs` are the two ways of
reaching the Exhausted state (round budget consumed, or two consecutive
rounds contributing zero new documents). -/
inductive StopReason where
  | solved
  | roundLimit
  | noNewDocs
deriving DecidableEq, Repr

/-- Modelled from the spec: result of one IterativeRetrievalEngine
invocation — stop reason, the ordered round sequence, and the
accumulated evidence (returned even on exhaustion). -/
structure RetrievalResult where
  stop : StopReason
  rounds : List RetrievalRound
  evidence : List RetrievedDoc
deriving DecidableEq, Repr

/-- Modelled from the spec: merge newly retrieved chunks into the
accumulated evidence, deduplicated by chunk identifier, new chunks
appended at the end, order preserved. -/
def mergeEvidence (old new : List RetrievedDoc) : List RetrievedDoc :=
  new.foldl
    (fun acc d => if acc.any (fun e => e.chunkId == d.chunkId) then acc else acc ++ [d])
    old

/-- Evidence accumulated by folding `mergeEvidence` over a round
sequence, starting from `init`. -/
def gatherEvidence (init : List RetrievedDoc) (rounds : List RetrievalRound) :
    List RetrievedDoc :=
  rounds.foldl (fun acc r => mergeEvidence acc r.docs) init

/-- Modelled from the spec: the refine-and-judge loop of the
IterativeRetrievalEngine.  `search` and `judge` stand for the
DocumentIndex and LanguageModel capabilities.  Each round retrieves
(deduplicated within the round), merges into the accumulated evidence,
judges, and either stops on SOLVED or continues with the suggested next
query (defaulting to the original question).  The loop stops early once
two consecutive rounds have contributed zero new documents, and stops
after the round budget (`fuel`) is consumed. -/
def retrievalLoop (search : String → List RetrievedDoc)
    (judge : List RetrievedDoc → Judgment) (question : String) :
    Nat → Nat → String → List RetrievedDoc → Nat → List RetrievalRound →
    RetrievalResult
  | 0, _, _, evidence, _, rounds => ⟨.roundLimit, rounds, evidence⟩
  | fuel + 1, idx, query, evidence, zeroStreak, rounds =>
    if 2 ≤ zeroStreak then ⟨.noNewDocs, rounds, evidence⟩
    else
      let docs := mergeEvidence [] (search query)
      let newEvidence := mergeEvidence evidence docs
      let j := judge newEvidence
      let round : RetrievalRound := ⟨idx, query, docs, j⟩
      match j.status with
      | .SOLVED => ⟨.solved, rounds ++ [round], newEvidence⟩
      | .CONTINUE =>
        retrievalLoop search judge question fuel (idx + 1)
          (j.nextQuery.getD question) newEvidence
          (if newEvidence.length = evidence.length then zeroStreak + 1 else 0)
          (rounds ++ [round])

/-- Modelled from the spec: `IterativeRetrievalEngine.solve` — start in
Searching with the initial query equal to the question, run at most
`maxRounds` rounds. -/
def IterativeRetrievalEngine.solve (search : String → List RetrievedDoc)
    (judge : List RetrievedDoc → Judgment) (question : String)
    (maxRounds : Nat) : RetrievalResult :=
  retrievalLoop search judge question maxRounds 1 question [] 0 []

/-- Modelled from the spec: the two reasoning engines. -/
inductive Engine where
  | STRUCTURED
  | RETRIEVAL
deriving DecidableEq, Repr

/-- The other engine (the single fallback direction switch). -/
def otherEngine : Engine → Engine
  | .STRUCTURED => .RETRIEVAL
  | .RETRIEVAL => .STRUCTURED

/-- Modelled from the spec: one result row of a structured query. -/
abbrev Row := List (String × String)

/-- Modelled from the spec: outcome of one structured attempt. -/
inductive AttemptOutcome where
  | SUCCESS
  | EMPTY
  | ERROR
deriving DecidableEq, Repr

/-- Modelled from the spec: one structured-query attempt (1-based
index, optional hint, generated query text, result rows or execution
error, outcome). -/
structure StructuredAttempt where
  index : Nat
  hint : Option String
  query : String
  result : Except String (List Row)
  outcome : AttemptOutcome
deriving Repr

/-- Modelled from the spec: classify an execution result — execution
errors are distinguished from well-formed empty result sets; a
non-empty result set is SUCCESS. -/
def outcomeOf : Except String (List Row) → AttemptOutcome
  | .error _ => .ERROR
  | .ok [] => .EMPTY
  | .ok (_ :: _) => .SUCCESS

/-- Modelled from the spec: the deterministic attempt plan — attempt 1
with no hint, then up to K−1 retries, each with a different hint drawn
from the deterministic fallback list. -/
def attemptPlan (fallbackHints : List String) (K : Nat) : List (Option String) :=
  (none :: fallbackHints.map some).take K

/-- Modelled from the spec: run the planned attempts in order, stopping
as soon as an attempt is SUCCESS; every attempt, success or not, is
recorded in order. -/
def runAttempts (gen : Option String → String)
    (exec : String → Except String (List Row)) :
    List (Option String) → Nat → List StructuredAttempt
  | [], _ => []
  | h :: hs, i =>
    if outcomeOf (exec (gen h)) = .SUCCESS then
      [⟨i, h, gen h, exec (gen h), outcomeOf (exec (gen h))⟩]
    else
      ⟨i, h, gen h, exec (gen h), outcomeOf (exec (gen h))⟩ ::
        runAttempts gen exec hs (i + 1)

/-- Rows of the first SUCCESS attempt, if any. -/
def firstSuccessRows (l : List StructuredAttempt) : Option (List Row) :=
  match l.find? (fun a => a.outcome == .SUCCESS) with
  | some a =>
    match a.result with
    | .ok rows => some rows
    | .error _ => none
  | none => none

/-- Modelled from the spec: result of `StructuredQueryEngine.solve` —
answer rows (`none` means overall failure) plus the full attempt
sequence. -/
structure StructuredResult where
  rows : Option (List Row)
  attempts : List StructuredAttempt

/-- Modelled from the spec: `StructuredQueryEngine.solve`, where `gen`
is the LanguageModel query-generation capability (hint appended to the
prompt) and `exec` the TabularStore. -/
def StructuredQueryEngine.solve (gen : Option String → String)
    (exec : String → Except String (List Row))
    (fallbackHints : List String) (K : Nat) : StructuredResult :=
  ⟨firstSuccessRows (runAttempts gen exec (attemptPlan fallbackHints K) 1),
    runAttempts gen exec (attemptPlan fallbackHints K) 1⟩

/-- Modelled from the spec: trace step names. -/
inductive StepName where
  | IntentRecognition
  | StructuredQuery
  | Retrieval
  | Fallback
  | FinalAnswer
deriving DecidableEq, Repr

/-- Modelled from the spec: the details payload of a trace step, whose
shape depends on the step (attempt sequence, round sequence, or plain
key/value pairs). -/
inductive StepDetails where
  | sql (attempts : List StructuredAttempt)
  | rag (rounds : List RetrievalRound)
  | kv (pairs : List (String × String))
deriving Repr

/-- Modelled from the spec: one trace step. -/
structure TraceStep where
  name : StepName
  strategy : String
  details : StepDetails
deriving Repr

/-- Modelled from the spec: one conversation turn of SessionMemory. -/
structure Turn where
  role : Role
  text : String
  trace : Option (List TraceStep)
  timestamp : Nat
deriving Repr

/-- Modelled from the spec: IntentDecision — chosen engine, the raw
classification signal, whether prior history influenced the decision,
and the recorded fail-soft reason if the default was taken. -/
structure IntentDecision where
  engine : Engine
  rawSignal : String
  historyUsed : Bool
  fallbackReason : Option String
deriving Repr

/-- Whitespace trimming as performed by JavaScript's `trim()`,
modelled directly on the character list. -/
def trimString (s : String) : String :=
  ⟨((s.data.dropWhile Char.isWhitespace).reverse.dropWhile Char.isWhitespace).reverse⟩

/-- Parse the binary classification label. -/
def parseEngine (s : String) : Option Engine :=
  if trimString s = "STRUCTURED" then some .STRUCTURED
  else if trimString s = "RETRIEVAL" then some .RETRIEVAL
  else none

/-- Modelled from the spec: `IntentRouter.classify` — `lm` is the
LanguageModel capability applied to the question and the bounded window
of recent history; model errors and unparseable labels fail soft to
RETRIEVAL with the reason recorded in the decision. -/
def IntentRouter.classify (lm : String → List Turn → Except String String)
    (window : Nat) (question : String) (history : List Turn) : IntentDecision :=
  let recent := history.drop (history.length - window)
  match lm question recent with
  | .error e => ⟨.RETRIEVAL, "", !recent.isEmpty, some ("model error: " ++ e)⟩
  | .ok s =>
    match parseEngine s with
    | some eng => ⟨eng, s, !recent.isEmpty, none⟩
    | none => ⟨.RETRIEVAL, s, !recent.isEmpty, some ("unparseable label: " ++ s)⟩

/-- Modelled from the spec: configuration constants (K attempts,
MAX_ROUNDS, the deterministic hint list, history window size). -/
structure Config where
  K : Nat
  maxRounds : Nat
  fallbackHints : List String
  historyWindow : Nat

/-- Modelled from the spec: the external capabilities consumed by the
orchestrator — the LanguageModel in its classify / generate / judge /
synthesize roles, the TabularStore, the DocumentIndex — plus the
wall-clock readings used for the per-phase timing map. -/
structure Oracles where
  classifyLM : String → List Turn → Except String String
  genQuery : String → Option String → String
  execQuery : String → Except String (List Row)
  search : String → List RetrievedDoc
  judge : List Turn → List RetrievedDoc → Judgment
  synthSQL : List Row → String
  synthRAG : List RetrievedDoc → String
  phaseTime : String → Nat

/-- Engine label used in key/value trace payloads. -/
def engineLabel : Engine → String
  | .STRUCTURED => "STRUCTURED"
  | .RETRIEVAL => "RETRIEVAL"

/-- Trace step name that records a run of the given engine. -/
def engineStepName : Engine → StepName
  | .STRUCTURED => .StructuredQuery
  | .RETRIEVAL => .Retrieval

/-- Modelled from the spec: the fixed, non-leaking apology message
returned on Terminal failure. -/
def apologyText : String :=
  "Sorry, I could not answer this question with the available data."

/-- Outcome of running one engine: success flag, synthesized answer
text, cited sources, generated query text, and the single trace step
this engine run appends. -/
structure EngineOutcome where
  ok : Bool
  text : String
  sources : List RetrievedDoc
  genText : Option String
  step : TraceStep

/-- Modelled from the spec: run one engine on the question and
history.  The structured engine fails when no attempt was SUCCESS; the
retrieval engine fails when it stops Exhausted. -/
def runEngine (o : Oracles) (cfg : Config) (question : String)
    (history : List Turn) : Engine → EngineOutcome
  | .STRUCTURED =>
    let r := StructuredQueryEngine.solve (o.genQuery question) o.execQuery
      cfg.fallbackHints cfg.K
    ⟨r.rows.isSome, o.synthSQL (r.rows.getD []), [],
      (r.attempts.find? (fun a => a.outcome == .SUCCESS)).map (fun a => a.query),
      ⟨.StructuredQuery, "SQL", .sql r.attempts⟩⟩
  | .RETRIEVAL =>
    let r := IterativeRetrievalEngine.solve o.search (o.judge history) question
      cfg.maxRounds
    ⟨r.stop == .solved, o.synthRAG r.evidence, r.evidence, none,
      ⟨.Retrieval, "RAG", .rag r.rounds⟩⟩

/-- Result of the fallback-controlled engine phase: answer text,
sources, generated query, the trace steps appended (in execution
order), the engines actually run (in execution order), and whether the
outcome is the Terminal failure. -/
structure ResolveResult where
  text : String
  sources : List RetrievedDoc
  genText : Option String
  steps : List TraceStep
  engineRuns : List Engine
  terminal : Bool

/-- Modelled from the spec: `FallbackController.resolve` — run the
primary engine first; if it fails, run the other engine exactly once
with the same question and history; if that also fails, produce the
Terminal apology answer.  A Fallback marker step is appended exactly
when the controller switches engines. -/
def FallbackController.resolve (o : Oracles) (cfg : Config) (question : String)
    (history : List Turn) (primary : Engine) : ResolveResult :=
  let p := runEngine o cfg question history primary
  if p.ok then ⟨p.text, p.sources, p.genText, [p.step], [primary], false⟩
  else
    let s := runEngine o cfg question history (otherEngine primary)
    let fb : TraceStep :=
      ⟨.Fallback, "FALLBACK",
        .kv [("from", engineLabel primary), ("to", engineLabel (otherEngine primary))]⟩
    if s.ok then
      ⟨s.text, s.sources, s.genText, [p.step, fb, s.step],
        [primary, otherEngine primary], false⟩
    else
      ⟨apologyText, p.sources ++ s.sources, none, [p.step, fb, s.step],
        [primary, otherEngine primary], true⟩

/-- Modelled from the spec: in-process session memory — ordered turn
history per session id. -/
abbrev SessionMemory := List (String × List Turn)

/-- Turn history of a session id (empty for a fresh id). -/
def getHistory (mem : SessionMemory) (sessionId : String) : List Turn :=
  match mem.find? (fun p => p.1 == sessionId) with
  | some p => p.2
  | none => []

/-- Append a turn to a session, creating the session on first
reference to the id. -/
def appendTurn (mem : SessionMemory) (sessionId : String) (t : Turn) :
    SessionMemory :=
  if mem.any (fun p => p.1 == sessionId) then
    mem.map (fun p => if p.1 == sessionId then (p.1, p.2 ++ [t]) else p)
  else
    mem ++ [(sessionId, [t])]

/-- Modelled from the spec: AnswerResult — final answer text, cited
sources, per-phase timing map, optional generated-query text, trace
log. -/
structure AnswerResult where
  answer : String
  sources : List RetrievedDoc
  timing : List (String × Nat)
  genQuery : Option String
  traceLog : List TraceStep

/-- The intent decision the orchestrator computes for a question (the
classifier sees the history stored before the current question is
appended). -/
def Orchestrator.intentOf (o : Oracles) (cfg : Config) (mem : SessionMemory)
    (question sessionId : String) : IntentDecision :=
  IntentRouter.classify o.classifyLM cfg.historyWindow question
    (getHistory mem sessionId)

/-- Modelled from the spec: `Orchestrator.answer` — append the user
turn, classify, run the fallback-controlled engine phase, record the
final answer step, append the assistant turn with the trace attached,
and return the AnswerResult with the updated memory.  Every
engine-level failure is absorbed into the returned AnswerResult; the
function is total. -/
def Orchestrator.answer (o : Oracles) (cfg : Config) (now : Nat)
    (mem : SessionMemory) (question sessionId : String) :
    AnswerResult × SessionMemory :=
  let d := Orchestrator.intentOf o cfg mem question sessionId
  let mem1 := appendTurn mem sessionId ⟨.user, question, none, now⟩
  let intentStep : TraceStep :=
    ⟨.IntentRecognition, "INTENT",
      .kv [("initial_intent", engineLabel d.engine),
           ("history_used", if d.historyUsed then "true" else "false")]⟩
  let r := FallbackController.resolve o cfg question (getHistory mem sessionId)
    d.engine
  let finalStep : TraceStep := ⟨.FinalAnswer, "ANSWER", .kv [("answer", r.text)]⟩
  let trace := intentStep :: r.steps ++ [finalStep]
  let res : AnswerResult :=
    ⟨r.text, r.sources,
      [("intent", o.phaseTime "intent"), ("engine", o.phaseTime "engine"),
        ("synthesis", o.phaseTime "synthesis")],
      r.genText, trace⟩
  (res, appendTurn mem1 sessionId ⟨.assistant, r.text, some trace, now⟩)

/-- Plain structured data: the JSON-like payloads exchanged with the
web UI (numbers modelled as naturals). -/
inductive Json where
  | null
  | bool (b : Bool)
  | num (n : Nat)
  | str (s : String)
  | arr (items : List Json)
  | obj (fields : List (String × Json))
deriving Repr

/-- The `ChatResponse` wire type declared in
`src/web-ui/src/api/index.ts` lines 8–16: fields `answer`, `sources`,
`timing`, optional `sql_query`, optional `evaluation`, optional
`raw_result`, `trace_log`.  `any`-typed payloads are modelled as
`Json`. -/
structure ChatResponse where
  answer : String
  sources : List Json
  timing : List (String × Nat)
  sql_query : Option String
  evaluation : Option Json
  raw_result : Option Json
  trace_log : List Json
deriving Repr

/-- Encoding of an optional string field. -/
def encodeOptStr : Option String → Json
  | none => .null
  | some s => .str s

/-- Encoding of an optional payload field (wrapped in an array so that
an absent field stays distinguishable from any present payload). -/
def encodeOpt : Option Json → Json
  | none => .arr []
  | some j => .arr [j]

/-- Serialization of a `ChatResponse` as plain structured data. -/
def ChatResponse.toJson (r : ChatResponse) : Json :=
  .obj [("answer", .str r.answer),
        ("sources", .arr r.sources),
        ("timing", .obj (r.timing.map (fun p => (p.1, .num p.2)))),
        ("sql_query", encodeOptStr r.sql_query),
        ("evaluation", encodeOpt r.evaluation),
        ("raw_result", encodeOpt r.raw_result),
        ("trace_log", .arr r.trace_log)]

/-- The `Message` interface of the chat store
(`src/stores/chatStore.ts`); optional fields start out absent. -/
structure Message where
  id : String
  role : Role
  content : String
  traceLog : Option (List Json)
  timestamp : Nat
  isLoading : Option Bool
  sources : Option (List Json)
deriving Repr

/-- The identity fields of a chat message: id, role, creation
timestamp. -/
def Message.identityCore (m : Message) : String × Role × Nat :=
  (m.id, m.role, m.timestamp)

/-- The chat store state managed by `useChatStore`. -/
structure ChatStore where
  messages : List Message
  selectedMessageId : Option String
  isGlobalLoading : Bool
  sessionId : String
deriving Repr

/-- `addMessage` from the chat store: build a message carrying the
generated id and current timestamp (the code reads the clock and a
random suffix; both are passed explicitly here) and push it at the
end. -/
def addMessage (id : String) (now : Nat) (role : Role) (content : String)
    (s : ChatStore) : ChatStore × Message :=
  let msg : Message := ⟨id, role, content, none, now, none, none⟩
  ({ s with messages := s.messages ++ [msg] }, msg)

/-- In-place mutation of the message object with the given id, as
performed on `loadingMsg` (the same object that was pushed) in
`sendUserMessage`; generated ids are assumed distinct. -/
def updateMessage (id : String) (f : Message → Message) (s : ChatStore) :
    ChatStore :=
  { s with messages := s.messages.map (fun m => if m.id = id then f m else m) }

/-- The fixed UI-side error text filled into the placeholder when the
request fails. -/
def uiErrorText : String := "抱歉，系统处理您的请求时遇到错误。"

/-- `sendUserMessage` up to the await point, after the guard passed:
append the user message, append the empty assistant placeholder, set
its loading flag, set the global loading flag, select the
placeholder. -/
def sendUserMessagePending (uid aid : String) (now : Nat) (content : String)
    (s : ChatStore) : ChatStore :=
  let s1 := (addMessage uid now .user content s).1
  let s2 := (addMessage aid now .assistant "" s1).1
  let s3 := updateMessage aid (fun m => { m with isLoading := some true }) s2
  { s3 with isGlobalLoading := true, selectedMessageId := some aid }

/-- The continuation of `sendUserMessage` once the request resolves:
on success fill the placeholder with the response fields and select it;
on error fill it with the fixed error text; either way clear the global
loading flag (the `finally` block). -/
def applyResponse (aid : String) (resp : Except String ChatResponse)
    (s : ChatStore) : ChatStore :=
  match resp with
  | .ok r =>
    let s1 := updateMessage aid (fun m =>
      { m with content := r.answer, traceLog := some r.trace_log,
               sources := some r.sources, isLoading := some false }) s
    { s1 with selectedMessageId := some aid, isGlobalLoading := false }
  | .error _ =>
    let s1 := updateMessage aid (fun m =>
      { m with content := uiErrorText, isLoading := some false }) s
    { s1 with isGlobalLoading := false }

/-- `sendUserMessage` from the chat store: returns the new store state
and whether a network request was issued.  An input whose trimmed form
is empty returns immediately. -/
def sendUserMessage (uid aid : String) (now : Nat) (content : String)
    (resp : Except String ChatResponse) (s : ChatStore) : ChatStore × Bool :=
  if trimString content = "" then (s, false)
  else (applyResponse aid resp (sendUserMessagePending uid aid now content s), true)

/-- Oracles under which every structured query errors, retrieval finds
nothing, and the judge never reports SOLVED: both engines fail. -/
def failingOracles : Oracles :=
  ⟨fun _ _ => .ok "STRUCTURED", fun _ _ => "SELECT name FROM contacts",
    fun _ => .error "syntax error", fun _ => [], fun _ _ => ⟨.CONTINUE, none, none⟩,
    fun _ => "rows", fun _ => "docs", fun _ => 0⟩

/-- Oracles whose structured engine succeeds on the first attempt. -/
def happyOracles : Oracles :=
  ⟨fun _ _ => .ok "STRUCTURED", fun _ _ => "SELECT name FROM contacts",
    fun _ => .ok [[("name", "ACME")]], fun _ => [], fun _ _ => ⟨.CONTINUE, none, none⟩,
    fun _ => "rows", fun _ => "docs", fun _ => 0⟩

/-- A small concrete configuration (K = 3 attempts, MAX_ROUNDS = 3,
two fallback hints, history window 2). -/
def cfg0 : Config := ⟨3, 3, ["company", "contract"], 2⟩

/-- A concrete response without the optional payload fields. -/
def sampleResponse : ChatResponse := ⟨"OK", [], [], none, none, none, []⟩

/-- The same response with a raw-result payload attached. -/
def sampleResponseRaw : ChatResponse := ⟨"OK", [], [], none, none, some .null, []⟩

/-- An empty chat store. -/
def emptyStore : ChatStore := ⟨[], none, false, "session_1"⟩

/-! ### Lemmas about evidence merging -/

theorem mergeEvidence_cons (old : List RetrievedDoc) (d : RetrievedDoc)
    (new : List RetrievedDoc) :
    mergeEvidence old (d :: new) =
      mergeEvidence
        (if old.any (fun e => e.chunkId == d.chunkId) then old else old ++ [d]) new := by
  rfl

theorem mergeEvidence_extends (old new : List RetrievedDoc) :
    old <+: mergeEvidence old new := by
  induction new generalizing old with
  | nil => exact List.prefix_refl old
  | cons d new ih =>
    rw [mergeEvidence_cons]
    by_cases h : old.any (fun e => e.chunkId == d.chunkId)
    · simpa [h] using ih old
    · refine List.IsPrefix.trans ?_ (by simpa [h] using ih (old ++ [d]))
      exact ⟨[d], rfl⟩

theorem mergeEvidence_mem (old new : List RetrievedDoc) (x : RetrievedDoc)
    (hx : x ∈ mergeEvidence old new) : x ∈ old ∨ x ∈ new := by
  induction new generalizing old with
  | nil => exact Or.inl hx
  | cons d new ih =>
    rw [mergeEvidence_cons] at hx
    by_cases h : old.any (fun e => e.chunkId == d.chunkId)
    · rcases ih _ (by simpa [h] using hx) with h1 | h1
      · exact Or.inl h1
      · exact Or.inr (List.mem_cons_of_mem _ h1)
    · rcases ih _ (by simpa [h] using hx) with h1 | h1
      · rcases List.mem_append.1 h1 with h2 | h2
        · exact Or.inl h2
        · have hxd : x = d := by simpa using h2
          exact Or.inr (by simp [hxd])
      · exact Or.inr (List.mem_cons_of_mem _ h1)

theorem mergeEvidence_nodup (old new : List RetrievedDoc)
    (h : (old.map RetrievedDoc.chunkId).Nodup) :
    ((mergeEvidence old new).map RetrievedDoc.chunkId).Nodup := by
  induction new generalizing old with
  | nil => exact h
  | cons d new ih =>
    rw [mergeEvidence_cons]
    by_cases hmem : old.any (fun e => e.chunkId == d.chunkId)
    · simpa [hmem] using ih old h
    · have hnot : ∀ x ∈ old, ¬ x.chunkId = d.chunkId := by
        intro x hxmem heq
        have : old.any (fun e => e.chunkId == d.chunkId) = true :=
          List.any_eq_true.2 ⟨x, hxmem, by simpa using heq⟩
        simp [this] at hmem
      have : ((old ++ [d]).map RetrievedDoc.chunkId).Nodup := by
        simp only [List.map_append, List.map_cons, List.map_nil, List.nodup_append]
        refine ⟨h, List.nodup_singleton _, ?_⟩
        intro a ha hb
        rcases List.mem_map.1 ha with ⟨x, hx, rfl⟩
        have hc : x.chunkId = d.chunkId := by simpa using hb
        exact hnot x hx hc
      simpa [hmem] using ih (old ++ [d]) this

/-! ### Lemmas about the retrieval loop -/

theorem gatherEvidence_nil (init : List RetrievedDoc) :
    gatherEvidence init [] = init := rfl

theorem gatherEvidence_concat (init : List RetrievedDoc)
    (rs : List RetrievalRound) (r : RetrievalRound) :
    gatherEvidence init (rs ++ [r]) = mergeEvidence (gatherEvidence init rs) r.docs := by
  simp [gatherEvidence]

theorem retrievalLoop_length (search : String → List RetrievedDoc)
    (judge : List RetrievedDoc → Judgment) (question : String) :
    ∀ (fuel idx : Nat) (query : String) (ev : List RetrievedDoc) (zs : Nat)
      (rs : List RetrievalRound),
      (retrievalLoop search judge question fuel idx query ev zs rs).rounds.length ≤
        rs.length + fuel := by
  intro fuel
  induction fuel with
  | zero => intro idx query ev zs rs; simp [retrievalLoop]
  | succ fuel ih =>
    intro idx query ev zs rs
    simp only [retrievalLoop]
    split
    · simp
    · split
      · simp
      · refine le_trans (ih _ _ _ _ _) ?_
        simp
        omega

theorem retrievalLoop_solved_last (search : String → List RetrievedDoc)
    (judge : List RetrievedDoc → Judgment) (question : String) :
    ∀ (fuel idx : Nat) (query : String) (ev : List RetrievedDoc) (zs : Nat)
      (rs : List RetrievalRound),
      (∀ a ∈ rs, a.judgment.status = .CONTINUE) →
      ((∀ a ∈ (retrievalLoop search judge question fuel idx query ev zs rs).rounds.dropLast,
          a.judgment.status = .CONTINUE) ∧
        ((retrievalLoop search judge question fuel idx query ev zs rs).stop = .solved ↔
          ((retrievalLoop search judge question fuel idx query ev zs rs).rounds.getLast?.map
            (fun a => a.judgment.status)) = some .SOLVED)) := by
  have notLast : ∀ (rs : List RetrievalRound),
      (∀ a ∈ rs, a.judgment.status = .CONTINUE) →
      ¬ (rs.getLast?.map (fun a => a.judgment.status) = some .SOLVED) := by
    intro rs hcont h
    rcases hl : rs.getLast? with _ | a
    · rw [hl] at h; cases h
    · rw [hl] at h
      have ha : a ∈ rs := by
        rcases List.mem_getLast?_eq_getLast (show a ∈ rs.getLast? by simp [hl]) with ⟨hne, hb⟩
        exact hb ▸ List.getLast_mem hne
      have := hcont a ha
      simp [this] at h
  intro fuel
  induction fuel with
  | zero =>
    intro idx query ev zs rs hcont
    simp only [retrievalLoop]
    refine ⟨fun a ha => hcont a (List.dropLast_subset _ ha), ?_⟩
    constructor
    · intro h; cases h
    · intro h; exact absurd h (notLast rs hcont)
  | succ fuel ih =>
    intro idx query ev zs rs hcont
    simp only [retrievalLoop]
    split
    · refine ⟨fun a ha => hcont a (List.dropLast_subset _ ha), ?_⟩
      constructor
      · intro h; cases h
      · intro h; exact absurd h (notLast rs hcont)
    · split
      · rename_i heq
        refine ⟨?_, ?_⟩
        · intro a ha
          simp only [List.dropLast_concat] at ha
          exact hcont a ha
        · simp [List.getLast?_concat, heq]
      · rename_i heq
        refine ih _ _ _ _ _ ?_
        intro a ha
        rcases List.mem_append.1 ha with h1 | h1
        · exact hcont a h1
        · have : a = ⟨idx, query, mergeEvidence [] (search query),
              judge (mergeEvidence ev (mergeEvidence [] (search query)))⟩ := by
            simpa using h1
          subst this
          simpa using heq

theorem retrievalLoop_roundLimit (search : String → List RetrievedDoc)
    (judge : List RetrievedDoc → Judgment) (question : String) :
    ∀ (fuel idx : Nat) (query : String) (ev : List RetrievedDoc) (zs : Nat)
      (rs : List RetrievalRound),
      (retrievalLoop search judge question fuel idx query ev zs rs).stop = .roundLimit →
      (retrievalLoop search judge question fuel idx query ev zs rs).rounds.length =
        rs.length + fuel := by
  intro fuel
  induction fuel with
  | zero => intro idx query ev zs rs _; simp [retrievalLoop]
  | succ fuel ih =>
    intro idx query ev zs rs hstop
    simp only [retrievalLoop] at hstop ⊢
    split at hstop
    · cases hstop
    · rename_i hzs
      split at hstop
      · cases hstop
      · rw [if_neg hzs]
        rw [ih _ _ _ _ _ hstop]
        simp only [List.length_append, List.length_cons, List.length_nil]
        omega

theorem retrievalLoop_decompose (search : String → List RetrievedDoc)
    (judge : List RetrievedDoc → Judgment) (question : String) :
    ∀ (fuel idx : Nat) (query : String) (ev : List RetrievedDoc) (zs : Nat)
      (rs : List RetrievalRound),
      ∃ tail : List RetrievalRound,
        (retrievalLoop search judge question fuel idx query ev zs rs).rounds = rs ++ tail ∧
        (retrievalLoop search judge question fuel idx query ev zs rs).evidence =
          gatherEvidence ev tail := by
  intro fuel
  induction fuel with
  | zero =>
    intro idx query ev zs rs
    exact ⟨[], by simp [retrievalLoop, gatherEvidence]⟩
  | succ fuel ih =>
    intro idx query ev zs rs
    simp only [retrievalLoop]
    split
    · exact ⟨[], by simp [gatherEvidence]⟩
    · split
      · refine ⟨[⟨idx, query, mergeEvidence [] (search query),
          judge (mergeEvidence ev (mergeEvidence [] (search query)))⟩], by simp, ?_⟩
        simp [gatherEvidence]
      · obtain ⟨tail, h1, h2⟩ := ih _ _ _ _ _
        refine ⟨⟨idx, query, mergeEvidence [] (search query),
          judge (mergeEvidence ev (mergeEvidence [] (search query)))⟩ :: tail, ?_, ?_⟩
        · rw [h1]; simp
        · rw [h2]; rfl

theorem retrievalLoop_noNewDocs (search : String → List RetrievedDoc)
    (judge : List RetrievedDoc → Judgment) (question : String)
    (e0 : List RetrievedDoc) :
    ∀ (fuel idx : Nat) (query : String) (ev : List RetrievedDoc) (zs : Nat)
      (rs : List RetrievalRound),
      zs ≤ 2 → zs ≤ rs.length →
      gatherEvidence e0 rs = ev →
      gatherEvidence e0 (rs.take (rs.length - zs)) = ev →
      (retrievalLoop search judge question fuel idx query ev zs rs).stop = .noNewDocs →
      2 ≤ (retrievalLoop search judge question fuel idx query ev zs rs).rounds.length ∧
        gatherEvidence e0
          ((retrievalLoop search judge question fuel idx query ev zs rs).rounds.take
            ((retrievalLoop search judge question fuel idx query ev zs rs).rounds.length - 2)) =
          (retrievalLoop search judge question fuel idx query ev zs rs).evidence := by
  intro fuel
  induction fuel with
  | zero =>
    intro idx query ev zs rs _ _ _ _ hstop
    simp only [retrievalLoop] at hstop
    cases hstop
  | succ fuel ih =>
    intro idx query ev zs rs hzs2 hzslen hg hgt hstop
    simp only [retrievalLoop] at hstop ⊢
    split at hstop
    · rename_i hzs
      have hz : zs = 2 := le_antisymm hzs2 hzs
      subst hz
      exact ⟨hzslen, hgt⟩
    · rename_i hzs
      split at hstop
      · cases hstop
      · rename_i hst
        rw [if_neg hzs]
        by_cases hlen :
            (mergeEvidence ev (mergeEvidence [] (search query))).length = ev.length
        · rw [if_pos hlen] at hstop ⊢
          have hnev : mergeEvidence ev (mergeEvidence [] (search query)) = ev :=
            ((mergeEvidence_extends ev _).eq_of_length hlen.symm).symm
          refine ih _ _ _ _ _ (by omega) (by simp; omega) ?_ ?_ hstop
          · rw [gatherEvidence_concat, hg]
          · have hle : rs.length - zs ≤ rs.length := Nat.sub_le _ _
            rw [show (rs ++
                [(⟨idx, query, mergeEvidence [] (search query),
                  judge (mergeEvidence ev (mergeEvidence [] (search query)))⟩ :
                    RetrievalRound)]).length - (zs + 1) = rs.length - zs by
              simp]
            rw [List.take_append_eq_append_take, Nat.sub_eq_zero_of_le hle]
            simp only [List.take_zero, List.append_nil]
            rw [hgt, hnev]
        · rw [if_neg hlen] at hstop ⊢
          refine ih _ _ _ _ _ (by omega) (by simp) ?_ ?_ hstop
          · rw [gatherEvidence_concat, hg]
          · rw [Nat.sub_zero, List.take_length, gatherEvidence_concat, hg]

theorem gatherEvidence_nodup :
    ∀ (rounds : List RetrievalRound) (init : List RetrievedDoc),
      (init.map RetrievedDoc.chunkId).Nodup →
      ((gatherEvidence init rounds).map RetrievedDoc.chunkId).Nodup := by
  intro rounds
  induction rounds with
  | nil => intro init h; exact h
  | cons r rounds ih =>
    intro init h
    exact ih (mergeEvidence init r.docs) (mergeEvidence_nodup init r.docs h)

theorem solve_evidence_eq (search : String → List RetrievedDoc)
    (judge : List RetrievedDoc → Judgment) (question : String) (maxRounds : Nat) :
    (IterativeRetrievalEngine.solve search judge question maxRounds).evidence =
      gatherEvidence [] (IterativeRetrievalEngine.solve search judge question maxRounds).rounds := by
  obtain ⟨tail, h1, h2⟩ :=
    retrievalLoop_decompose search judge question maxRounds 1 question [] 0 []
  unfold IterativeRetrievalEngine.solve
  rw [h2, h1]
  simp

/-! ### Lemmas about the structured-query engine -/

theorem runAttempts_length (gen : Option String → String)
    (exec : String → Except String (List Row)) :
    ∀ (hs : List (Option String)) (i : Nat),
      (runAttempts gen exec hs i).length ≤ hs.length := by
  intro hs
  induction hs with
  | nil => intro i; simp [runAttempts]
  | cons h hs ih =>
    intro i
    simp only [runAttempts]
    split
    · simp
    · simpa using Nat.succ_le_succ (ih (i + 1))

theorem runAttempts_succ_count (gen : Option String → String)
    (exec : String → Except String (List Row)) :
    ∀ (hs : List (Option String)) (i : Nat),
      (runAttempts gen exec hs i).countP (fun a => a.outcome == .SUCCESS) ≤ 1 := by
  intro hs
  induction hs with
  | nil => intro i; simp [runAttempts]
  | cons h hs ih =>
    intro i
    simp only [runAttempts]
    split
    · rename_i hy
      simp [List.countP_cons, hy]
    · rename_i hno
      rw [List.countP_cons]
      have h1 : (outcomeOf (exec (gen h)) == AttemptOutcome.SUCCESS) = false := by
        simpa using hno
      simp only [h1]
      simpa using ih (i + 1)

theorem runAttempts_dropLast_count (gen : Option String → String)
    (exec : String → Except String (List Row)) :
    ∀ (hs : List (Option String)) (i : Nat),
      (runAttempts gen exec hs i).dropLast.countP
        (fun a => a.outcome == .SUCCESS) = 0 := by
  intro hs
  induction hs with
  | nil => intro i; simp [runAttempts]
  | cons h hs ih =>
    intro i
    simp only [runAttempts]
    split
    · simp
    · rename_i hno
      rcases hr : runAttempts gen exec hs (i + 1) with _ | ⟨b, tl⟩
      · simp
      · rw [show ((⟨i, h, gen h, exec (gen h), outcomeOf (exec (gen h))⟩ :
            StructuredAttempt) :: b :: tl).dropLast =
            ⟨i, h, gen h, exec (gen h), outcomeOf (exec (gen h))⟩ ::
              (b :: tl).dropLast by simp]
        rw [List.countP_cons]
        have h1 : (outcomeOf (exec (gen h)) == AttemptOutcome.SUCCESS) = false := by
          simpa using hno
        have h2 := ih (i + 1)
        rw [hr] at h2
        simp only [h1, h2]
        simp

/-- C2: every `StructuredQueryEngine.solve` invocation produces at most
K attempts, at most one of them SUCCESS, and no attempt before the last
one is SUCCESS (the engine stops at the first SUCCESS; no later attempt
is run). -/
theorem structured_attempts_bounded (gen : Option String → String)
    (exec : String → Except String (List Row))
    (fallbackHints : List String) (K : Nat) :
    (StructuredQueryEngine.solve gen exec fallbackHints K).attempts.length ≤ K ∧
    (StructuredQueryEngine.solve gen exec fallbackHints K).attempts.countP
      (fun a => a.outcome == .SUCCESS) ≤ 1 ∧
    (StructuredQueryEngine.solve gen exec fallbackHints K).attempts.dropLast.countP
      (fun a => a.outcome == .SUCCESS) = 0 := by
  refine ⟨?_, ?_, ?_⟩
  · refine (runAttempts_length gen exec (attemptPlan fallbackHints K) 1).trans ?_
    simp [attemptPlan]
  · exact runAttempts_succ_count gen exec (attemptPlan fallbackHints K) 1
  · exact runAttempts_dropLast_count gen exec (attemptPlan fallbackHints K) 1

/-- C3: every `IterativeRetrievalEngine.solve` invocation runs at most
MAX_ROUNDS rounds; every round before the last is CONTINUE (the loop
stops at the first SOLVED judgment, which can only sit at the end);
stopping on the round limit means exactly MAX_ROUNDS rounds ran;
stopping early on no-new-documents means at least two rounds ran and
the last two contributed no new evidence; and the accumulated evidence
gathered over all recorded rounds is returned even when the engine
stops exhausted. -/
theorem retrieval_rounds_bounded (search : String → List RetrievedDoc)
    (judge : List RetrievedDoc → Judgment) (question : String) (maxRounds : Nat) :
    (IterativeRetrievalEngine.solve search judge question maxRounds).rounds.length ≤
      maxRounds ∧
    (∀ a ∈ (IterativeRetrievalEngine.solve search judge question maxRounds).rounds.dropLast,
      a.judgment.status = .CONTINUE) ∧
    ((IterativeRetrievalEngine.solve search judge question maxRounds).stop = .solved ↔
      ((IterativeRetrievalEngine.solve search judge question maxRounds).rounds.getLast?.map
        (fun a => a.judgment.status)) = some .SOLVED) ∧
    ((IterativeRetrievalEngine.solve search judge question maxRounds).stop = .roundLimit →
      (IterativeRetrievalEngine.solve search judge question maxRounds).rounds.length =
        maxRounds) ∧
    ((IterativeRetrievalEngine.solve search judge question maxRounds).stop = .noNewDocs →
      2 ≤ (IterativeRetrievalEngine.solve search judge question maxRounds).rounds.length ∧
      gatherEvidence []
        ((IterativeRetrievalEngine.solve search judge question maxRounds).rounds.take
          ((IterativeRetrievalEngine.solve search judge question maxRounds).rounds.length
            - 2)) =
        (IterativeRetrievalEngine.solve search judge question maxRounds).evidence) ∧
    (IterativeRetrievalEngine.solve search judge question maxRounds).evidence =
      gatherEvidence []
        (IterativeRetrievalEngine.solve search judge question maxRounds).rounds := by
  refine ⟨?_, ?_, ?_, ?_, ?_, solve_evidence_eq search judge question maxRounds⟩
  · simpa [IterativeRetrievalEngine.solve] using
      retrievalLoop_length search judge question maxRounds 1 question [] 0 []
  · exact (retrievalLoop_solved_last search judge question maxRounds 1 question [] 0 []
      (by simp)).1
  · exact (retrievalLoop_solved_last search judge question maxRounds 1 question [] 0 []
      (by simp)).2
  · intro hstop
    simpa [IterativeRetrievalEngine.solve] using
      retrievalLoop_roundLimit search judge question maxRounds 1 question [] 0 [] hstop
  · intro hstop
    exact retrievalLoop_noNewDocs search judge question [] maxRounds 1 question [] 0 []
      (by omega) (by simp) rfl rfl hstop

/-- Witness for C3: with an empty index and a judge that never says
SOLVED, the engine stops early after exactly two zero-new-document
rounds (with MAX_ROUNDS = 3). -/
theorem retrieval_rounds_bounded_witness :
    2 ≤ (IterativeRetrievalEngine.solve (fun _ => [])
      (fun _ => ⟨.CONTINUE, none, none⟩) "q" 3).rounds.length ∧
    gatherEvidence []
      ((IterativeRetrievalEngine.solve (fun _ => [])
        (fun _ => ⟨.CONTINUE, none, none⟩) "q" 3).rounds.take
        ((IterativeRetrievalEngine.solve (fun _ => [])
          (fun _ => ⟨.CONTINUE, none, none⟩) "q" 3).rounds.length - 2)) =
      (IterativeRetrievalEngine.solve (fun _ => [])
        (fun _ => ⟨.CONTINUE, none, none⟩) "q" 3).evidence :=
  (retrieval_rounds_bounded (fun _ => []) (fun _ => ⟨.CONTINUE, none, none⟩)
    "q" 3).2.2.2.2.1 rfl

/-- C4: across all rounds of one retrieval invocation the accumulated
evidence carries pairwise-distinct chunk identifiers, and the merge
operation keeps the previously seen evidence as an unchanged prefix
(order preserved, new chunks only appended) and only appends chunks
drawn from the new retrieval. -/
theorem evidence_nodup_merge_append (search : String → List RetrievedDoc)
    (judge : List RetrievedDoc → Judgment) (question : String) (maxRounds : Nat) :
    (((IterativeRetrievalEngine.solve search judge question maxRounds).evidence).map
      RetrievedDoc.chunkId).Nodup ∧
    (∀ old new : List RetrievedDoc, old <+: mergeEvidence old new) ∧
    (∀ old new : List RetrievedDoc, ∀ x ∈ mergeEvidence old new, x ∈ old ∨ x ∈ new) ∧
    (∀ old new : List RetrievedDoc, (old.map RetrievedDoc.chunkId).Nodup →
      ((mergeEvidence old new).map RetrievedDoc.chunkId).Nodup) := by
  refine ⟨?_, mergeEvidence_extends,
    fun old new x hx => mergeEvidence_mem old new x hx, mergeEvidence_nodup⟩
  rw [solve_evidence_eq]
  exact gatherEvidence_nodup _ [] (by simp)

/-- Witness for C4: the merge of a duplicate-free singleton with a new
chunk keeps distinct identifiers, and a merged chunk always comes from
one of the two inputs. -/
theorem evidence_nodup_merge_append_witness :
    ((⟨"c2", "b", 2⟩ : RetrievedDoc) ∈ [(⟨"c1", "a", 1⟩ : RetrievedDoc)] ∨
      (⟨"c2", "b", 2⟩ : RetrievedDoc) ∈ [(⟨"c2", "b", 2⟩ : RetrievedDoc)]) ∧
    ((mergeEvidence [⟨"c1", "a", 1⟩] [⟨"c2", "b", 2⟩]).map
      RetrievedDoc.chunkId).Nodup :=
  ⟨(evidence_nodup_merge_append (fun _ => []) (fun _ => ⟨.CONTINUE, none, none⟩)
      "q" 1).2.2.1 [⟨"c1", "a", 1⟩] [⟨"c2", "b", 2⟩] ⟨"c2", "b", 2⟩ (by decide),
    (evidence_nodup_merge_append (fun _ => []) (fun _ => ⟨.CONTINUE, none, none⟩)
      "q" 1).2.2.2 [⟨"c1", "a", 1⟩] [⟨"c2", "b", 2⟩] (by decide)⟩

/-! ### Lemmas about fallback, routing and the orchestrator -/

theorem runEngine_step_name (o : Oracles) (cfg : Config) (question : String)
    (history : List Turn) (e : Engine) :
    (runEngine o cfg question history e).step.name = engineStepName e := by
  cases e <;> simp [runEngine, engineStepName]

theorem otherEngine_ne (e : Engine) : otherEngine e ≠ e := by
  cases e <;> simp [otherEngine]

/-- C1: the FallbackController switches engines at most once per
question: the primary engine runs first and exactly once; at most one
further engine runs and it is the other engine, run exactly when the
primary failed; the outcome is Terminal exactly when both runs failed,
and then the answer is the fixed apology — the primary engine is never
re-run. -/
theorem fallback_single_switch (o : Oracles) (cfg : Config) (question : String)
    (history : List Turn) (primary : Engine) :
    (FallbackController.resolve o cfg question history primary).engineRuns.head? =
      some primary ∧
    (FallbackController.resolve o cfg question history primary).engineRuns.count primary = 1 ∧
    ((runEngine o cfg question history primary).ok = true →
      (FallbackController.resolve o cfg question history primary).engineRuns = [primary]) ∧
    ((runEngine o cfg question history primary).ok = false →
      (FallbackController.resolve o cfg question history primary).engineRuns =
        [primary, otherEngine primary]) ∧
    ((FallbackController.resolve o cfg question history primary).terminal = true ↔
      ((runEngine o cfg question history primary).ok = false ∧
        (runEngine o cfg question history (otherEngine primary)).ok = false)) ∧
    ((FallbackController.resolve o cfg question history primary).terminal = true →
      (FallbackController.resolve o cfg question history primary).text = apologyText) := by
  have hne : otherEngine primary ≠ primary := otherEngine_ne primary
  unfold FallbackController.resolve
  by_cases hp : (runEngine o cfg question history primary).ok = true
  · simp [hp, List.count_cons]
  · by_cases hs : (runEngine o cfg question history (otherEngine primary)).ok = true
    · simp only [Bool.not_eq_true] at hp
      simp [hp, hs, List.count_cons, hne]
    · simp only [Bool.not_eq_true] at hp hs
      simp [hp, hs, List.count_cons, hne]

/-- Witness for C1: with oracles under which both engines fail the
controller runs STRUCTURED then RETRIEVAL and produces the apology;
with a succeeding structured engine it runs STRUCTURED alone. -/
theorem fallback_single_switch_witness :
    (FallbackController.resolve failingOracles cfg0 "q" [] .STRUCTURED).engineRuns =
      [.STRUCTURED, .RETRIEVAL] ∧
    (FallbackController.resolve failingOracles cfg0 "q" [] .STRUCTURED).text =
      apologyText ∧
    (FallbackController.resolve happyOracles cfg0 "q" [] .STRUCTURED).engineRuns =
      [.STRUCTURED] :=
  ⟨(fallback_single_switch failingOracles cfg0 "q" [] .STRUCTURED).2.2.2.1 rfl,
    (fallback_single_switch failingOracles cfg0 "q" [] .STRUCTURED).2.2.2.2.2 rfl,
    (fallback_single_switch happyOracles cfg0 "q" [] .STRUCTURED).2.2.1 rfl⟩

/-- C6: if the LanguageModel call inside `IntentRouter.classify` errors
or returns a label that does not parse as STRUCTURED or RETRIEVAL, the
decision defaults to RETRIEVAL and records the fallback reason. -/
theorem intent_router_fail_soft (lm : String → List Turn → Except String String)
    (window : Nat) (question : String) (history : List Turn)
    (h : (∃ e, lm question (history.drop (history.length - window)) = .error e) ∨
      (∃ s, lm question (history.drop (history.length - window)) = .ok s ∧
        parseEngine s = none)) :
    (IntentRouter.classify lm window question history).engine = .RETRIEVAL ∧
    (IntentRouter.classify lm window question history).fallbackReason.isSome = true := by
  unfold IntentRouter.classify
  rcases h with ⟨e, he⟩ | ⟨s, hs, hp⟩
  · simp [he]
  · simp [hs, hp]

/-- Witness for C6: a model outage defaults the decision to RETRIEVAL
with a recorded reason. -/
theorem intent_router_fail_soft_witness :
    (IntentRouter.classify (fun _ _ => .error "model down") 2 "q" []).engine =
      .RETRIEVAL ∧
    (IntentRouter.classify (fun _ _ => .error "model down") 2 "q"
      []).fallbackReason.isSome = true :=
  intent_router_fail_soft (fun _ _ => .error "model down") 2 "q" []
    (Or.inl ⟨"model down", rfl⟩)

/-- C5: `Orchestrator.answer` is a total function — every engine-level
failure is absorbed into a returned AnswerResult (the only failure mode
left is an internal invariant violation, of which the model has none) —
and when both engines fail the returned answer is the fixed apology
text while the trace still records, in execution order, the intent
step, both engines' steps, the fallback marker, and the final answer
step. -/
theorem orchestrator_absorbs_failures (o : Oracles) (cfg : Config) (now : Nat)
    (mem : SessionMemory) (question sessionId : String)
    (hs : (runEngine o cfg question (getHistory mem sessionId) .STRUCTURED).ok = false)
    (hr : (runEngine o cfg question (getHistory mem sessionId) .RETRIEVAL).ok = false) :
    (Orchestrator.answer o cfg now mem question sessionId).1.answer = apologyText ∧
    ((Orchestrator.answer o cfg now mem question sessionId).1.traceLog.map
      TraceStep.name) =
      [.IntentRecognition,
        engineStepName (Orchestrator.intentOf o cfg mem question sessionId).engine,
        .Fallback,
        engineStepName
          (otherEngine (Orchestrator.intentOf o cfg mem question sessionId).engine),
        .FinalAnswer] := by
  cases hE : (Orchestrator.intentOf o cfg mem question sessionId).engine
  · constructor
    · simp [Orchestrator.answer, FallbackController.resolve, hE, hs, hr, otherEngine]
    · simp [Orchestrator.answer, FallbackController.resolve, hE, hs, hr, otherEngine,
        runEngine_step_name, engineStepName]
  · constructor
    · simp [Orchestrator.answer, FallbackController.resolve, hE, hs, hr, otherEngine]
    · simp [Orchestrator.answer, FallbackController.resolve, hE, hs, hr, otherEngine,
        runEngine_step_name, engineStepName]

/-- Witness for C5: with both engines failing, the orchestrator still
returns (apology text, full five-step trace). -/
theorem orchestrator_absorbs_failures_witness :
    (Orchestrator.answer failingOracles cfg0 7 [] "q" "s").1.answer = apologyText ∧
    ((Orchestrator.answer failingOracles cfg0 7 [] "q" "s").1.traceLog.map
      TraceStep.name) =
      [.IntentRecognition, .StructuredQuery, .Fallback, .Retrieval, .FinalAnswer] :=
  orchestrator_absorbs_failures failingOracles cfg0 7 [] "q" "s" rfl rfl

/-- C7: the trace of one `answer` invocation holds exactly one step per
component actually invoked, in execution order: the intent step, then
the primary engine's step, then — exactly when the primary failed and
the controller switched — the fallback marker and the secondary
engine's step, then the final answer step. -/
theorem trace_step_order (o : Oracles) (cfg : Config) (now : Nat)
    (mem : SessionMemory) (question sessionId : String) :
    ((runEngine o cfg question (getHistory mem sessionId)
        (Orchestrator.intentOf o cfg mem question sessionId).engine).ok = true →
      ((Orchestrator.answer o cfg now mem question sessionId).1.traceLog.map
        TraceStep.name) =
        [.IntentRecognition,
          engineStepName (Orchestrator.intentOf o cfg mem question sessionId).engine,
          .FinalAnswer]) ∧
    ((runEngine o cfg question (getHistory mem sessionId)
        (Orchestrator.intentOf o cfg mem question sessionId).engine).ok = false →
      ((Orchestrator.answer o cfg now mem question sessionId).1.traceLog.map
        TraceStep.name) =
        [.IntentRecognition,
          engineStepName (Orchestrator.intentOf o cfg mem question sessionId).engine,
          .Fallback,
          engineStepName
            (otherEngine (Orchestrator.intentOf o cfg mem question sessionId).engine),
          .FinalAnswer]) := by
  constructor
  · intro hok
    simp [Orchestrator.answer, FallbackController.resolve, hok, runEngine_step_name]
  · intro hko
    by_cases hsec : (runEngine o cfg question (getHistory mem sessionId)
        (otherEngine (Orchestrator.intentOf o cfg mem question sessionId).engine)).ok = true
    · simp [Orchestrator.answer, FallbackController.resolve, hko, hsec,
        runEngine_step_name]
    · simp only [Bool.not_eq_true] at hsec
      simp [Orchestrator.answer, FallbackController.resolve, hko, hsec,
        runEngine_step_name]

/-- Witness for C7: with a succeeding structured engine the trace is
exactly intent / structured query / final answer. -/
theorem trace_step_order_witness :
    ((Orchestrator.answer happyOracles cfg0 7 [] "q" "s").1.traceLog.map
      TraceStep.name) =
      [.IntentRecognition, .StructuredQuery, .FinalAnswer] :=
  (trace_step_order happyOracles cfg0 7 [] "q" "s").1 rfl

/-! ### Lemmas about the chat store and the wire type -/

theorem map_core_of_core_preserving (g : Message → Message)
    (hg : ∀ m, (g m).identityCore = m.identityCore) (l : List Message) :
    (l.map g).map Message.identityCore = l.map Message.identityCore := by
  rw [List.map_map]
  refine List.map_congr_left ?_
  intro m _
  simpa using hg m

theorem filter_ne_of_update (id : String) (f : Message → Message)
    (hid : ∀ m, (f m).id = m.id) :
    ∀ (l : List Message),
      ((l.map (fun m => if m.id = id then f m else m)).filter
        (fun m => m.id != id)) = l.filter (fun m => m.id != id) := by
  intro l
  induction l with
  | nil => rfl
  | cons m l ih =>
    by_cases h : m.id = id
    · simp only [List.map_cons, if_pos h, List.filter_cons]
      rw [show (((f m).id != id) = false) by simp [hid m, h]]
      rw [show ((m.id != id) = false) by simp [h]]
      simpa using ih
    · simp only [List.map_cons, if_neg h, List.filter_cons]
      rw [show ((m.id != id) = true) by simp [h]]
      simpa using ih

theorem pending_messages (uid aid : String) (now : Nat) (content : String)
    (s : ChatStore) :
    (sendUserMessagePending uid aid now content s).messages =
      (s.messages ++ [(⟨uid, .user, content, none, now, none, none⟩ : Message),
        (⟨aid, .assistant, "", none, now, none, none⟩ : Message)]).map
        (fun m => if m.id = aid then { m with isLoading := some true } else m) := by
  simp [sendUserMessagePending, addMessage, updateMessage]

/-- C9 (amended): messages are appended in strict submission order (the
user message, then the assistant placeholder, after any previous
messages); resolving the request never modifies any message's id, role
or creation timestamp and leaves every message other than the
placeholder untouched — but it does update the appended placeholder's
content, trace log and sources in place. -/
theorem send_message_identity_preserved (uid aid : String) (now : Nat)
    (content : String) (resp : Except String ChatResponse) (s : ChatStore) :
    (sendUserMessagePending uid aid now content s).messages.map
      Message.identityCore =
      s.messages.map Message.identityCore ++
        [(uid, .user, now), (aid, .assistant, now)] ∧
    (applyResponse aid resp (sendUserMessagePending uid aid now content
      s)).messages.map Message.identityCore =
      (sendUserMessagePending uid aid now content s).messages.map
        Message.identityCore ∧
    (applyResponse aid resp (sendUserMessagePending uid aid now content
      s)).messages.filter (fun m => m.id != aid) =
      (sendUserMessagePending uid aid now content s).messages.filter
        (fun m => m.id != aid) := by
  refine ⟨?_, ?_, ?_⟩
  · rw [pending_messages,
      map_core_of_core_preserving _
        (fun m => by by_cases h : m.id = aid <;> simp [h, Message.identityCore])]
    simp [Message.identityCore]
  · cases resp with
    | ok r =>
      exact map_core_of_core_preserving _
        (fun m => by by_cases h : m.id = aid <;> simp [h, Message.identityCore]) _
    | error e =>
      exact map_core_of_core_preserving _
        (fun m => by by_cases h : m.id = aid <;> simp [h, Message.identityCore]) _
  · cases resp with
    | ok r =>
      exact filter_ne_of_update aid
        (fun m =>
          { m with
            content := r.answer
            traceLog := some r.trace_log
            sources := some r.sources
            isLoading := some false })
        (fun m => rfl) _
    | error e =>
      exact filter_ne_of_update aid
        (fun m =>
          { m with
            content := uiErrorText
            isLoading := some false })
        (fun m => rfl) _

/-- C9 counterexample: the assistant placeholder appended by
`sendUserMessage` is mutated in place after it has been appended — its
content changes from the empty placeholder text to the response answer
(and its trace log is attached) while its id and timestamp stay — so an
appended turn is not immutable. -/
theorem turn_mutation_after_append_cex :
    ((sendUserMessagePending "u1" "a1" 5 "hi" emptyStore).messages.map
      Message.content) = ["hi", ""] ∧
    ((applyResponse "a1" (.ok sampleResponse)
      (sendUserMessagePending "u1" "a1" 5 "hi" emptyStore)).messages.map
      Message.content) = ["hi", "OK"] ∧
    ((applyResponse "a1" (.ok sampleResponse)
      (sendUserMessagePending "u1" "a1" 5 "hi" emptyStore)).messages.map
      Message.id) =
      ((sendUserMessagePending "u1" "a1" 5 "hi" emptyStore).messages.map
        Message.id) := by
  refine ⟨?_, ?_, ?_⟩ <;> rfl

/-- C10: an input whose whitespace-trimmed form is empty makes
`sendUserMessage` return immediately: no message is appended, no
network request is issued, and the store state — messages, selection,
global loading flag — is unchanged. -/
theorem empty_input_no_effect (uid aid : String) (now : Nat) (content : String)
    (resp : Except String ChatResponse) (s : ChatStore)
    (h : trimString content = "") :
    sendUserMessage uid aid now content resp s = (s, false) ∧
    (sendUserMessage uid aid now content resp s).1.messages = s.messages ∧
    (sendUserMessage uid aid now content resp s).1.selectedMessageId =
      s.selectedMessageId ∧
    (sendUserMessage uid aid now content resp s).1.isGlobalLoading =
      s.isGlobalLoading ∧
    (sendUserMessage uid aid now content resp s).2 = false := by
  simp [sendUserMessage, h]

/-- Witness for C10: a whitespace-only input leaves the empty store
untouched and issues no request. -/
theorem empty_input_no_effect_witness :
    sendUserMessage "u1" "a1" 5 "   " (.error "net") emptyStore =
      (emptyStore, false) :=
  (empty_input_no_effect "u1" "a1" 5 "   " (.error "net") emptyStore
    (by decide)).1

theorem encodeOptStr_injective : Function.Injective encodeOptStr := by
  intro a b h
  cases a <;> cases b <;> simp_all [encodeOptStr]

theorem encodeOpt_injective : Function.Injective encodeOpt := by
  intro a b h
  cases a <;> cases b <;> simp_all [encodeOpt]

theorem timingEncode_injective :
    Function.Injective (fun p : String × Nat => (p.1, Json.num p.2)) := by
  intro p q h
  cases p; cases q
  simpa using h

/-- C8 counterexample: two distinct `ChatResponse` values agree on all
five fields the claim lists (answer, sources, timing, optional
generated query, trace log) yet differ — the declared wire type also
carries the optional `evaluation` and `raw_result` fields. -/
theorem chat_response_extra_fields_cex :
    sampleResponse.answer = sampleResponseRaw.answer ∧
    sampleResponse.sources = sampleResponseRaw.sources ∧
    sampleResponse.timing = sampleResponseRaw.timing ∧
    sampleResponse.sql_query = sampleResponseRaw.sql_query ∧
    sampleResponse.trace_log = sampleResponseRaw.trace_log ∧
    sampleResponse ≠ sampleResponseRaw := by
  refine ⟨rfl, rfl, rfl, rfl, rfl, ?_⟩
  intro h
  have hra := congrArg ChatResponse.raw_result h
  simp [sampleResponse, sampleResponseRaw] at hra

/-- C8 (amended): a `ChatResponse` carries exactly the seven declared
fields — answer, sources, timing, optional sql_query, optional
evaluation, optional raw_result, trace_log — and every field is
faithfully serializable as plain structured data (the encoding into
`Json` is injective). -/
theorem chat_response_fields_serializable :
    (∀ r1 r2 : ChatResponse, r1.answer = r2.answer → r1.sources = r2.sources →
      r1.timing = r2.timing → r1.sql_query = r2.sql_query →
      r1.evaluation = r2.evaluation → r1.raw_result = r2.raw_result →
      r1.trace_log = r2.trace_log → r1 = r2) ∧
    Function.Injective ChatResponse.toJson := by
  constructor
  · intro r1 r2 h1 h2 h3 h4 h5 h6 h7
    cases r1; cases r2
    simp_all
  · intro r1 r2 h
    obtain ⟨a1, s1, t1, q1, e1, w1, g1⟩ := r1
    obtain ⟨a2, s2, t2, q2, e2, w2, g2⟩ := r2
    simp only [ChatResponse.toJson, Json.obj.injEq, List.cons.injEq, Prod.mk.injEq,
      Json.str.injEq, Json.arr.injEq, true_and, and_true] at h
    obtain ⟨ha, hsrc, htm, hq, hev, hraw, htl⟩ := h
    have htm2 : t1 = t2 := List.map_injective_iff.2 timingEncode_injective htm
    have hq2 : q1 = q2 := encodeOptStr_injective hq
    have hev2 : e1 = e2 := encodeOpt_injective hev
    have hraw2 : w1 = w2 := encodeOpt_injective hraw
    simp_all

/-- Witness for C8: the seven-field determination and the injectivity
of the encoding, applied at the two sample responses. -/
theorem chat_response_fields_witness :
    sampleResponse = sampleResponse ∧ sampleResponseRaw = sampleResponseRaw :=
  ⟨chat_response_fields_serializable.1 sampleResponse sampleResponse
      rfl rfl rfl rfl rfl rfl rfl,
    chat_response_fields_serializable.2
      (show sampleResponseRaw.toJson = sampleResponseRaw.toJson from rfl)⟩

end QuotationAgent
